import Mathlib

/-!
Verification of the incremental iMessage→email sync engine.

This file gives a shallow embedding, in Lean 4, of the sync core of the
repository: the per-cycle delta filter, the email thread builder
(`GmailService.convertConversationToEmail`), the message-id generator
(`GmailService.generateMessageId`), the watermark bookkeeping of
`SyncService.runSync` / `SyncService.syncConversation` (src/commands/service.ts),
the batched config commit (`ConfigManager.batchUpdateSync`), conversation
tracking (`ConfigManager.addTrackedConversation`), and the scheduler's
single-in-flight guard.

Conventions of the embedding:
* JavaScript `Date` values are modelled as `Int` milliseconds since the epoch
  (`Date.now()`, `date.getTime()` arithmetic is exact integer arithmetic).
* Locale-dependent rendering (`toLocaleString`) is abstracted by `renderTimestamp`;
  nothing proved here depends on it.
* Asynchronous I/O is modelled by explicit inputs (the extractor's outcome per
  conversation, the wall clock at each processing step, a flag for whether the
  config write succeeds) and by an explicit effect trace for a cycle.
-/

namespace IMessageSync

/-- Message record (src/types/index.ts `Message`); `date` is ms since epoch,
attachments are irrelevant to the sync core and omitted by every consumer here. -/
structure Message where
  guid : String
  text : String
  date : Int
  isFromMe : Bool
  handleId : String
  chatIdentifier : String
deriving Repr, DecidableEq

/-- Tracked conversation entry (src/types/config.ts `TrackedConversation`). -/
structure TrackedConversation where
  chatIdentifier : String
  displayName : String
  participants : List String
  isGroup : Bool
  addedDate : Int
  lastSyncDate : Option Int
  lastMessageId : Option String
deriving Repr, DecidableEq

/-- Outbound email unit (src/services/GmailService.ts `EmailMessage`); the source
field `to` is a reserved word in Lean and is embedded as `toRecipient`. -/
structure EmailMessage where
  toRecipient : String
  subject : String
  htmlBody : String
  textBody : String
  messageId : String
  inReplyTo : Option String
  references : Option (List String)
  conversationId : String
deriving Repr, DecidableEq

/-! ## GmailService -/

/-- The `replace(/[^a-zA-Z0-9]/g, '')` cleaning used by `generateMessageId`:
keep only ASCII letters and digits. -/
def cleanAlnum (s : String) : String :=
  ⟨s.data.filter Char.isAlphanum⟩

/-- `GmailService.generateMessageId(messageGuid, conversationId)`:
`<imessage-${cleanConvId}-${cleanGuid}@imessage-sync.local>`. -/
def generateMessageId (messageGuid conversationId : String) : String :=
  "<imessage-" ++ cleanAlnum conversationId ++ "-" ++ cleanAlnum messageGuid
    ++ "@imessage-sync.local>"

/-- Substring occurrence at some position of the haystack list. -/
def hasSubseqAt (needle : List Char) : List Char → Bool
  | [] => needle.isEmpty
  | c :: rest => List.isPrefixOf needle (c :: rest) || hasSubseqAt needle rest

/-- JavaScript `a.includes(b)` on strings: `b` occurs as a contiguous substring of `a`. -/
def jsIncludes (a b : String) : Bool :=
  hasSubseqAt b.data a.data

/-- The digit extraction `phone.replace(/\D/g, '')`. -/
def digitsOnly (s : String) : String :=
  ⟨s.data.filter Char.isDigit⟩

/-- `GmailService.formatPhoneForSubject`. -/
def formatPhoneForSubject (phone : String) : String :=
  let digits := digitsOnly phone
  if digits.length = 10 then
    "+1" ++ digits
  else if digits.length = 11 && digits.data.head? == some '1' then
    "+" ++ digits
  else if phone.startsWith "+" then phone else "+" ++ phone

/-- `GmailService.createEmailSubject(conversationDisplayName, conversationId)`. -/
def createEmailSubject (conversationDisplayName conversationId : String) : String :=
  let rawIdentifier := conversationId
  if conversationDisplayName ≠ rawIdentifier
      ∧ ¬ jsIncludes conversationDisplayName rawIdentifier
      ∧ ¬ jsIncludes rawIdentifier conversationDisplayName then
    if jsIncludes rawIdentifier "@" then
      "iMessage: " ++ conversationDisplayName ++ " (" ++ rawIdentifier ++ ")"
    else
      "iMessage: " ++ conversationDisplayName ++ " (" ++ formatPhoneForSubject rawIdentifier ++ ")"
  else
    "iMessage: " ++ conversationDisplayName

/-- One global-replace pass of `escapeHtml`: every occurrence of `c` becomes `r`. -/
def replaceAllChar (c : Char) (r : List Char) (l : List Char) : List Char :=
  l.flatMap (fun x => if x = c then r else [x])

/-- `GmailService.escapeHtml`: the six chained `replace` calls, in source order
(`&`, `<`, `>`, `"`, `'`, newline). -/
def escapeHtml (text : String) : String :=
  ⟨replaceAllChar '\n' "<br>".data
    (replaceAllChar '\x27' "&#39;".data
      (replaceAllChar '"' "&quot;".data
        (replaceAllChar '>' "&gt;".data
          (replaceAllChar '<' "&lt;".data
            (replaceAllChar '&' "&amp;".data text.data)))))⟩

/-- Stand-in for JavaScript `date.toLocaleString()`: rendering is
locale/environment dependent; only its determinism matters here. -/
def renderTimestamp (date : Int) : String :=
  toString date

/-- `GmailService.formatMessageAsHTML` (CSS braces written as escapes). -/
def formatMessageAsHTML (message : Message) (conversationName : String) : String :=
  let timestamp := renderTimestamp message.date
  let sender := if message.isFromMe then "You" else message.handleId
  let direction := if message.isFromMe then "sent" else "received"
  "\n<!DOCTYPE html>\n<html>\n<head>\n    <meta charset=\"UTF-8\">\n    <style>\n"
    ++ "        body \x7b font-family: system-ui, -apple-system, sans-serif; margin: 20px; \x7d\n"
    ++ "        .message-container \x7b max-width: 600px; margin: 0 auto; \x7d\n"
    ++ "        .header \x7b border-bottom: 1px solid #ddd; padding-bottom: 10px; margin-bottom: 20px; \x7d\n"
    ++ "        .conversation-name \x7b font-size: 18px; font-weight: bold; color: #333; \x7d\n"
    ++ "        .message \x7b background: " ++ (if message.isFromMe then "#007AFF" else "#E5E5EA")
    ++ "; \n                   color: " ++ (if message.isFromMe then "white" else "black")
    ++ ";\n                   padding: 12px 16px; border-radius: 18px; margin: 10px 0;\n"
    ++ "                   max-width: 70%; word-wrap: break-word;\n                   "
    ++ (if message.isFromMe then "margin-left: auto; text-align: right;" else "margin-right: auto;")
    ++ " \x7d\n"
    ++ "        .sender \x7b font-size: 12px; color: #666; margin-bottom: 5px; \x7d\n"
    ++ "        .timestamp \x7b font-size: 11px; color: #999; margin-top: 5px; \x7d\n"
    ++ "        .footer \x7b margin-top: 20px; padding-top: 10px; border-top: 1px solid #ddd; \n"
    ++ "                  font-size: 12px; color: #666; text-align: center; \x7d\n"
    ++ "    </style>\n</head>\n<body>\n    <div class=\"message-container\">\n"
    ++ "        <div class=\"header\">\n            <div class=\"conversation-name\">"
    ++ conversationName ++ "</div>\n        </div>\n        \n        <div class=\"sender\">"
    ++ sender ++ "</div>\n        <div class=\"message\">" ++ escapeHtml message.text
    ++ "</div>\n        <div class=\"timestamp\">" ++ timestamp
    ++ "</div>\n        \n        <div class=\"footer\">\n            Synced from iMessage • Message "
    ++ direction ++ " " ++ timestamp ++ "\n        </div>\n    </div>\n</body>\n</html>"

/-- `GmailService.formatMessageAsText`. -/
def formatMessageAsText (message : Message) (conversationName : String) : String :=
  let timestamp := renderTimestamp message.date
  let sender := if message.isFromMe then "You" else message.handleId
  let direction := if message.isFromMe then "sent" else "received"
  "iMessage Conversation: " ++ conversationName ++ "\n\nFrom: " ++ sender
    ++ "\nDate: " ++ timestamp ++ "\n\n" ++ message.text
    ++ "\n\n---\nSynced from iMessage • Message " ++ direction ++ " " ++ timestamp

/-- Stable ascending insertion for `sortByDate`: a new element goes after all
existing elements whose date is ≤ its own. -/
def insertByDate (m : Message) : List Message → List Message
  | [] => [m]
  | x :: xs => if x.date ≤ m.date then x :: insertByDate m xs else m :: x :: xs

/-- The `[...messages].sort((a, b) => a.date.getTime() - b.date.getTime())` step of
`convertConversationToEmail`: a stable ascending sort by timestamp. -/
def sortByDate (messages : List Message) : List Message :=
  messages.foldl (fun acc m => insertByDate m acc) []

/-- The body of the `for` loop of `GmailService.convertConversationToEmail`,
carrying the loop state: the index `i`, `previousMessageId`, and `allMessageIds`
(the ids pushed so far, before the current iteration's push). -/
def buildEmails (conversationDisplayName conversationId : String) :
    List Message → Nat → Option String → List String → List EmailMessage
  | [], _, _, _ => []
  | message :: rest, i, previousMessageId, allMessageIds =>
    let messageId := generateMessageId message.guid conversationId
    let allMessageIds1 := allMessageIds ++ [messageId]
    let subject :=
      if i = 0 then createEmailSubject conversationDisplayName conversationId
      else "Re: " ++ createEmailSubject conversationDisplayName conversationId
    { toRecipient := ""
      subject := subject
      htmlBody := formatMessageAsHTML message conversationDisplayName
      textBody := formatMessageAsText message conversationDisplayName
      messageId := messageId
      inReplyTo := previousMessageId
      references :=
        if previousMessageId.isSome then some allMessageIds1.dropLast else none
      conversationId := conversationId }
      :: buildEmails conversationDisplayName conversationId rest (i + 1)
          (some messageId) allMessageIds1

/-- `GmailService.convertConversationToEmail(messages, conversationDisplayName,
conversationId)`: early-return `[]` on empty input, otherwise sort by date and
run the building loop from index 0 with no previous id and no accumulated ids. -/
def convertConversationToEmail (messages : List Message)
    (conversationDisplayName conversationId : String) : List EmailMessage :=
  if messages.isEmpty then []
  else buildEmails conversationDisplayName conversationId (sortByDate messages) 0 none []

/-! ## Lemmas about the stable sort -/

/-- Inserting is a permutation-respecting cons. -/
theorem insertByDate_perm (m : Message) (l : List Message) :
    List.Perm (insertByDate m l) (m :: l) := by
  induction l with
  | nil => simp [insertByDate]
  | cons x xs ih =>
    by_cases hx : x.date ≤ m.date
    · simp only [insertByDate, if_pos hx]
      exact (ih.cons x).trans (List.Perm.swap m x xs)
    · simp [insertByDate, hx]

/-- The sorting fold is a permutation of the accumulator followed by the input. -/
theorem sortByDate_loop_perm (l acc : List Message) :
    List.Perm (l.foldl (fun a m => insertByDate m a) acc) (acc ++ l) := by
  induction l generalizing acc with
  | nil => simp
  | cons m rest ih =>
    have h1 := ih (insertByDate m acc)
    have h2 : List.Perm (insertByDate m acc ++ rest) (acc ++ m :: rest) := by
      have h3 := (insertByDate_perm m acc).append_right rest
      have h4 : List.Perm ((m :: acc) ++ rest) (acc ++ m :: rest) :=
        List.perm_middle.symm
      exact h3.trans h4
    simpa using h1.trans h2

theorem sortByDate_perm (l : List Message) : List.Perm (sortByDate l) l := by
  simpa [sortByDate] using sortByDate_loop_perm l []

/-- Inserting into an ascending list keeps it ascending. -/
theorem insertByDate_sorted (m : Message) (l : List Message)
    (h : l.Pairwise (fun a b => a.date ≤ b.date)) :
    (insertByDate m l).Pairwise (fun a b => a.date ≤ b.date) := by
  induction l with
  | nil => simp [insertByDate]
  | cons x xs ih =>
    rcases List.pairwise_cons.mp h with ⟨hx, hxs⟩
    by_cases hle : x.date ≤ m.date
    · simp only [insertByDate, if_pos hle]
      refine List.pairwise_cons.mpr ⟨?_, ih hxs⟩
      intro y hy
      have hy2 := (insertByDate_perm m xs).mem_iff.mp hy
      cases List.mem_cons.mp hy2 with
      | inl h1 => rw [h1]; exact hle
      | inr h2 => exact hx y h2
    · simp only [insertByDate, if_neg hle]
      refine List.pairwise_cons.mpr ⟨?_, h⟩
      intro y hy
      rcases List.mem_cons.mp hy with rfl | hyxs
      · exact le_of_not_le hle
      · exact le_trans (le_of_not_le hle) (hx y hyxs)

theorem sortByDate_loop_sorted (l acc : List Message)
    (h : acc.Pairwise (fun a b => a.date ≤ b.date)) :
    (l.foldl (fun a m => insertByDate m a) acc).Pairwise (fun a b => a.date ≤ b.date) := by
  induction l generalizing acc with
  | nil => simpa
  | cons m rest ih => exact ih (insertByDate m acc) (insertByDate_sorted m acc h)

theorem sortByDate_sorted (l : List Message) :
    (sortByDate l).Pairwise (fun a b => a.date ≤ b.date) :=
  sortByDate_loop_sorted l [] (by simp)

/-! ## The reply chain built by `convertConversationToEmail` -/

theorem buildEmails_length (d c : String) (msgs : List Message) (i : Nat)
    (prev : Option String) (ids : List String) :
    (buildEmails d c msgs i prev ids).length = msgs.length := by
  induction msgs generalizing i prev ids with
  | nil => rfl
  | cons m rest ih => simp [buildEmails, ih]

/-- The chaining invariant: starting from previously accumulated ids `ids` and
previous id `prev`, each email replies to its predecessor and references all
earlier ids in order. -/
def chainFrom : List String → Option String → List EmailMessage → Prop
  | _, _, [] => True
  | ids, prev, e :: rest =>
    e.inReplyTo = prev ∧
    e.references = (if prev.isSome then some ids else none) ∧
    chainFrom (ids ++ [e.messageId]) (some e.messageId) rest

theorem buildEmails_chainFrom (d c : String) (msgs : List Message) (i : Nat)
    (prev : Option String) (ids : List String) :
    chainFrom ids prev (buildEmails d c msgs i prev ids) := by
  induction msgs generalizing i prev ids with
  | nil => trivial
  | cons m rest ih =>
    refine ⟨rfl, ?_, ?_⟩
    · by_cases hp : prev.isSome <;> simp [hp]
    · simpa using ih (i + 1) (some (generateMessageId m.guid c))
        (ids ++ [generateMessageId m.guid c])

theorem chainFrom_head (es : List EmailMessage) (ids : List String)
    (h : chainFrom ids none es) :
    ∀ h0 : 0 < es.length,
      (es.get ⟨0, h0⟩).inReplyTo = none ∧ (es.get ⟨0, h0⟩).references = none := by
  cases es with
  | nil => intro h0; exact absurd h0 (by simp)
  | cons e rest =>
    intro _
    exact ⟨h.1, by simpa using h.2.1⟩

theorem chainFrom_get (es : List EmailMessage) :
    ∀ (ids : List String) (prev : Option String), chainFrom ids prev es →
    ∀ j, ∀ h : j + 1 < es.length,
      (es.get ⟨j + 1, h⟩).inReplyTo = some ((es.get ⟨j, Nat.lt_of_succ_lt h⟩).messageId)
      ∧ (es.get ⟨j + 1, h⟩).references
          = some (ids ++ (es.take (j + 1)).map EmailMessage.messageId) := by
  induction es with
  | nil => intro ids prev _ j h; exact absurd h (by simp)
  | cons e rest ih =>
    intro ids prev hch j h
    obtain ⟨h1, h2, h3⟩ := hch
    cases j with
    | zero =>
      cases rest with
      | nil => exact absurd h (by simp)
      | cons e2 rest2 =>
        obtain ⟨g1, g2, _⟩ := h3
        exact ⟨g1, by simpa using g2⟩
    | succ j' =>
      have hlt : j' + 1 < rest.length := Nat.lt_of_succ_lt_succ h
      have hrec := ih (ids ++ [e.messageId]) (some e.messageId) h3 j' hlt
      refine ⟨hrec.1, ?_⟩
      have := hrec.2
      simpa [List.append_assoc] using this

/-- Conclusion of claim C6 at input `messages`: the built emails come from the
stable ascending sort of the input, are one per message, the first email has no
inReplyTo/references, and each later email replies to its predecessor and
references all prior messageIds in order. -/
def threadChainOk (messages : List Message) (d c : String) : Prop :=
  convertConversationToEmail messages d c
      = buildEmails d c (sortByDate messages) 0 none []
  ∧ List.Perm (sortByDate messages) messages
  ∧ (sortByDate messages).Pairwise (fun a b => a.date ≤ b.date)
  ∧ (convertConversationToEmail messages d c).length = messages.length
  ∧ (∀ h0 : 0 < (convertConversationToEmail messages d c).length,
      ((convertConversationToEmail messages d c).get ⟨0, h0⟩).inReplyTo = none
      ∧ ((convertConversationToEmail messages d c).get ⟨0, h0⟩).references = none)
  ∧ (∀ j, ∀ h : j + 1 < (convertConversationToEmail messages d c).length,
      ((convertConversationToEmail messages d c).get ⟨j + 1, h⟩).inReplyTo
        = some (((convertConversationToEmail messages d c).get
            ⟨j, Nat.lt_of_succ_lt h⟩).messageId)
      ∧ ((convertConversationToEmail messages d c).get ⟨j + 1, h⟩).references
        = some (((convertConversationToEmail messages d c).take (j + 1)).map
            EmailMessage.messageId))

/-- C6: for every batch of N ≥ 1 incoming messages of one conversation in one
cycle, the built emails are in ascending message-timestamp order (they are built,
one per message, over the stable ascending sort of the batch), email 0 has no
inReplyTo and no references, and for every i > 0 email i's inReplyTo is email
i-1's messageId and email i's references are all prior messageIds in order. -/
theorem C6_thread_chain (messages : List Message) (d c : String)
    (hne : messages ≠ []) : threadChainOk messages d c := by
  have hemp : messages.isEmpty = false := by
    cases messages with
    | nil => exact absurd rfl hne
    | cons m rest => rfl
  have heq : convertConversationToEmail messages d c
      = buildEmails d c (sortByDate messages) 0 none [] := by
    simp [convertConversationToEmail, hemp]
  have hch := buildEmails_chainFrom d c (sortByDate messages) 0 none []
  refine ⟨heq, sortByDate_perm messages, sortByDate_sorted messages, ?_, ?_, ?_⟩
  · rw [heq, buildEmails_length]
    exact (sortByDate_perm messages).length_eq
  · intro h0
    have := chainFrom_head _ [] (heq ▸ hch) (by simpa using h0)
    simpa using this
  · intro j h
    have := chainFrom_get _ [] none (heq ▸ hch) j (by simpa using h)
    simpa using this

/-- Witness for C6 at a concrete two-message batch. -/
theorem C6_thread_chain_witness :
    ([⟨"g2", "second", 200, false, "h1", "c1"⟩,
      ⟨"g1", "first", 100, false, "h1", "c1"⟩] : List Message) ≠ []
    ∧ threadChainOk
        [⟨"g2", "second", 200, false, "h1", "c1"⟩,
         ⟨"g1", "first", 100, false, "h1", "c1"⟩] "Alice" "c1" :=
  ⟨by decide, C6_thread_chain _ "Alice" "c1" (by decide)⟩

/-! ## Injectivity of `generateMessageId` up to character stripping -/

theorem string_eq_of_data_eq (s t : String) (h : s.data = t.data) : s = t := by
  cases s; cases t; cases h; rfl

theorem cleanAlnum_ne_dash (s : String) : ∀ c ∈ (cleanAlnum s).data, c ≠ '-' := by
  intro c hc hdash
  have halnum : c.isAlphanum := (List.mem_filter.mp hc).2
  rw [hdash] at halnum
  exact absurd halnum (by decide)

/-- Splitting on a separator absent from both left parts is unambiguous. -/
theorem append_dash_inj : ∀ (l1 l2 r1 r2 : List Char),
    (∀ c ∈ l1, c ≠ '-') → (∀ c ∈ l2, c ≠ '-') →
    l1 ++ '-' :: r1 = l2 ++ '-' :: r2 → l1 = l2 ∧ r1 = r2
  | [], [], r1, r2, _, _, h => by simpa using h
  | [], x :: xs, r1, r2, _, h2, h => by
    simp only [List.nil_append, List.cons_append, List.cons.injEq] at h
    exact absurd h.1.symm (h2 x (List.mem_cons_self x xs))
  | x :: xs, [], r1, r2, h1, _, h => by
    simp only [List.nil_append, List.cons_append, List.cons.injEq] at h
    exact absurd h.1 (h1 x (List.mem_cons_self x xs))
  | x :: xs, y :: ys, r1, r2, h1, h2, h => by
    simp only [List.cons_append, List.cons.injEq] at h
    obtain ⟨hl, hr⟩ := append_dash_inj xs ys r1 r2
      (fun c hc => h1 c (List.mem_cons_of_mem x hc))
      (fun c hc => h2 c (List.mem_cons_of_mem y hc)) h.2
    exact ⟨by rw [h.1, hl], hr⟩

/-- Equal generated ids force equal cleaned components. -/
theorem generateMessageId_inj (g1 c1 g2 c2 : String)
    (h : generateMessageId g1 c1 = generateMessageId g2 c2) :
    cleanAlnum c1 = cleanAlnum c2 ∧ cleanAlnum g1 = cleanAlnum g2 := by
  have hdata := congrArg String.data h
  simp only [generateMessageId, String.data_append, List.append_assoc] at hdata
  have hdata2 :
      (cleanAlnum c1).data ++ '-' ::
        ((cleanAlnum g1).data ++ "@imessage-sync.local>".data)
      = (cleanAlnum c2).data ++ '-' ::
        ((cleanAlnum g2).data ++ "@imessage-sync.local>".data) := by
    have := List.append_cancel_left hdata
    simpa [List.append_assoc] using this
  obtain ⟨hc, hg0⟩ := append_dash_inj _ _ _ _
    (cleanAlnum_ne_dash c1) (cleanAlnum_ne_dash c2) hdata2
  have hg := List.append_cancel_right hg0
  exact ⟨string_eq_of_data_eq _ _ hc, string_eq_of_data_eq _ _ hg⟩

/-- C9 counterexample: the distinct pairs (conversationId, guid) = ("a!", "b")
and ("a", "b") yield the identical messageId, refuting global uniqueness. -/
theorem C9_counterexample :
    ("a!" : String) ≠ "a"
    ∧ generateMessageId "b" "a!" = generateMessageId "b" "a" := by
  exact ⟨by decide, by decide⟩

/-- C9 (amended): the email messageId is a pure deterministic function of
(conversationId, guid), and two pairs yield distinct messageIds whenever their
components still differ after stripping non-alphanumeric characters; pairs that
agree after stripping collide. -/
theorem C9_generateMessageId_unique (g1 c1 g2 c2 : String)
    (h : cleanAlnum c1 ≠ cleanAlnum c2 ∨ cleanAlnum g1 ≠ cleanAlnum g2) :
    generateMessageId g1 c1 ≠ generateMessageId g2 c2 := by
  intro he
  have hcomp := generateMessageId_inj g1 c1 g2 c2 he
  cases h with
  | inl h1 => exact h1 hcomp.1
  | inr h2 => exact h2 hcomp.2

/-- Witness for C9 (amended) at concrete distinct cleaned components. -/
theorem C9_generateMessageId_unique_witness :
    (cleanAlnum "chatA" ≠ cleanAlnum "chatB" ∨ cleanAlnum "g1" ≠ cleanAlnum "g2")
    ∧ generateMessageId "g1" "chatA" ≠ generateMessageId "g2" "chatB" :=
  ⟨Or.inl (by decide),
   C9_generateMessageId_unique "g1" "chatA" "g2" "chatB" (Or.inl (by decide))⟩

/-! ## SyncService (src/commands/service.ts) -/

/-- Outcome of `exporter.exportMessages` + the per-HTML-file
`parseExportedData`-and-dispatch loop for one conversation during one cycle.
`exportFailed` is an unsuccessful export (`!exportResult.success`): nothing is
parsed, nothing dispatched, 0 returned. `parseFailed parsedBefore` is a
`parseExportedData` throw on a later file (or an `fs.rm` cleanup failure)
caught by the `catch (parseError)` clause: the files in `parsedBefore` had
already completed their parse-and-dispatch iteration before the throw, and the
function still returns 0. `ok files` is the fully successful loop over every
exported HTML file. Each file's per-chat message groups are modelled flattened
into one list per file (the inner per-chat loop sums its counts, and filtering
distributes over the concatenation). -/
inductive ExtractOutcome where
  | exportFailed
  | parseFailed (parsedBefore : List (List Message))
  | ok (files : List (List Message))
deriving Repr, DecidableEq

/-- The local delta filter of `syncConversation`
(`!conv.lastSyncDate || msg.date > conv.lastSyncDate`): keep a message iff the
conversation has no watermark or the message is strictly newer than the
watermark itself. -/
def isNewMessage (conv : TrackedConversation) (msg : Message) : Bool :=
  match conv.lastSyncDate with
  | none => true
  | some w => w < msg.date

/-- Milliseconds subtracted from the watermark to form the export window start
(`2 * 60 * 1000` in `syncConversation`). -/
def bufferMs : Int := 2 * 60 * 1000

/-- The `startDate` computed at the top of `syncConversation`: the watermark
(or now minus 24 h when none) minus the 2-minute buffer. The computed value is
never passed to the exporter (the code removed `startDate`/`endDate` from
`exportOptions`) and never consulted by the message filter. -/
def bufferedStartDate (conv : TrackedConversation) (now : Int) : Int :=
  (match conv.lastSyncDate with
   | some w => w
   | none => now - 24 * 60 * 60 * 1000) - bufferMs

/-- `newMessages` of `syncConversation`: the cycle's batch for a conversation. -/
def newMessagesOf (conv : TrackedConversation) (messages : List Message) : List Message :=
  messages.filter (isNewMessage conv)

/-- `newReceivedMessages`: the incoming part of the batch. -/
def newReceivedMessagesOf (conv : TrackedConversation) (messages : List Message) : List Message :=
  (newMessagesOf conv messages).filter (fun msg => !msg.isFromMe)

/-- `newSentMessages`: the outgoing part of the batch (only counted and logged). -/
def newSentMessagesOf (conv : TrackedConversation) (messages : List Message) : List Message :=
  (newMessagesOf conv messages).filter (fun msg => msg.isFromMe)

/-- Return value of `syncConversation`: `totalNewMessages`, i.e. the number of
messages that passed the filter, accumulated over all files; 0 on an export
failure and 0 on a parse failure (the accumulated count is discarded by the
`return 0` in the catch clause). -/
def syncConversationCount (conv : TrackedConversation) (outcome : ExtractOutcome) : Nat :=
  match outcome with
  | .exportFailed => 0
  | .parseFailed _ => 0
  | .ok files => (files.map fun messages => (newMessagesOf conv messages).length).sum

/-- One entry of the `conversationUpdates` array built by `runSync`
(`{chatIdentifier, lastSyncDate}`; `runSync` never sets `lastMessageId`). -/
structure ConversationUpdate where
  chatIdentifier : String
  lastSyncDate : Int
  lastMessageId : Option String
deriving Repr, DecidableEq

/-- The update-collection loop of `runSync`: for each tracked conversation, in
list order, run `syncConversation`; when it reports more than zero new messages
push `{chatIdentifier, lastSyncDate := Date.now() - 5000}`. `extract` is the
environment giving each conversation's extraction outcome this cycle, and
`nowAt k` is the wall clock when the k-th conversation of the loop is finished
(the moment `Date.now()` is read). -/
def cycleUpdates (extract : TrackedConversation → ExtractOutcome) (nowAt : Nat → Int) :
    List TrackedConversation → Nat → List ConversationUpdate
  | [], _ => []
  | conv :: rest, k =>
    let newMessages := syncConversationCount conv (extract conv)
    if 0 < newMessages then
      { chatIdentifier := conv.chatIdentifier
        lastSyncDate := nowAt k - 5000
        lastMessageId := none } :: cycleUpdates extract nowAt rest (k + 1)
    else
      cycleUpdates extract nowAt rest (k + 1)

/-! ## ConfigManager (the variant with `batchUpdateSync`) -/

/-- The `sync` section of the persisted config (src/types/config.ts
`SyncConfig`); the `email`/`export` sections are untouched by the sync cycle
and omitted. -/
structure SyncConfig where
  trackedConversations : List TrackedConversation
  syncInterval : Nat
  lastGlobalSync : Option Int
  enableAutoSync : Bool
  logLevel : String
deriving Repr, DecidableEq

/-- Application of one conversation update inside `batchUpdateSync`: `find` the
first tracked entry with the update's `chatIdentifier` and mutate its
`lastSyncDate` (and `lastMessageId` only when the update carries one). -/
def applyConversationUpdate (convs : List TrackedConversation)
    (u : ConversationUpdate) : List TrackedConversation :=
  match convs with
  | [] => []
  | c :: rest =>
    if c.chatIdentifier = u.chatIdentifier then
      { c with
        lastSyncDate := some u.lastSyncDate
        lastMessageId := match u.lastMessageId with
          | some mid => some mid
          | none => c.lastMessageId } :: rest
    else
      c :: applyConversationUpdate rest u

/-- `ConfigManager.batchUpdateSync`: apply every conversation update, then the
global settings (here `lastGlobalSync`, the only field `runSync` passes), and
save once at the end. This is the content of the single write. -/
def batchUpdateSync (config : SyncConfig) (updates : List ConversationUpdate)
    (lastGlobalSync : Option Int) : SyncConfig :=
  { config with
    trackedConversations := updates.foldl applyConversationUpdate config.trackedConversations
    lastGlobalSync := match lastGlobalSync with
      | some t => some t
      | none => config.lastGlobalSync }

/-- One whole `runSync` cycle at the store level: when the tracked list is
empty the cycle logs and returns before any write (the early return at the top
of `runSync`); otherwise collect the per-conversation updates and commit them
in one `batchUpdateSync` write. `storeOk` models whether that single
`saveConfig` write succeeds; a failed write leaves the persisted config
untouched. `globalNow` is the `new Date()` used for `lastGlobalSync`. -/
def runCycle (storeOk : Bool) (extract : TrackedConversation → ExtractOutcome)
    (nowAt : Nat → Int) (globalNow : Int) (config : SyncConfig) : SyncConfig :=
  if config.trackedConversations.isEmpty then
    config
  else if storeOk then
    batchUpdateSync config (cycleUpdates extract nowAt config.trackedConversations 0)
      (some globalNow)
  else
    config

/-! ## Effect trace of one cycle -/

/-- Observable side effects of one cycle, in order: an exporter invocation per
conversation, an email handed to the transport per built email (gmail mode), a
logged would-be email per incoming message (simulation mode), a logged
conversation-scoped error, and the single batched store write. -/
inductive SyncEffect where
  | exportRun (chatIdentifier : String)
  | emailSend (email : EmailMessage)
  | simulateEmail (message : Message)
  | logError (chatIdentifier : String)
  | storeWrite (config : SyncConfig)
deriving Repr, DecidableEq

/-- Effects of one completed iteration of the per-HTML-file loop of
`syncConversation`: with incoming messages in the file's batch, either the
dispatched emails (`gmailService` present, `emailEnabled`) or the simulated
ones. Outgoing messages produce no effect beyond logging counts. -/
def fileEffects (emailEnabled : Bool) (conv : TrackedConversation)
    (messages : List Message) : List SyncEffect :=
  let newReceivedMessages := newReceivedMessagesOf conv messages
  if newReceivedMessages.isEmpty then []
  else if emailEnabled then
    (convertConversationToEmail newReceivedMessages conv.displayName
      conv.chatIdentifier).map SyncEffect.emailSend
  else
    newReceivedMessages.map SyncEffect.simulateEmail

/-- The files whose parse-and-dispatch iteration completed: none when the
export failed, those before the throw on a parse failure, all on success. -/
def processedFiles : ExtractOutcome → List (List Message)
  | .exportFailed => []
  | .parseFailed parsedBefore => parsedBefore
  | .ok files => files

/-- Effects of `syncConversation` for one conversation: the export run, then —
on an export failure — only the logged error; on a parse failure — the
dispatches of every file iterated before the throw, then the logged error; on
success — every file's dispatches. -/
def conversationEffects (emailEnabled : Bool) (conv : TrackedConversation) :
    ExtractOutcome → List SyncEffect
  | .exportFailed =>
    [SyncEffect.exportRun conv.chatIdentifier, SyncEffect.logError conv.chatIdentifier]
  | .parseFailed parsedBefore =>
    SyncEffect.exportRun conv.chatIdentifier ::
      (parsedBefore.flatMap (fileEffects emailEnabled conv)
        ++ [SyncEffect.logError conv.chatIdentifier])
  | .ok files =>
    SyncEffect.exportRun conv.chatIdentifier ::
      files.flatMap (fileEffects emailEnabled conv)

/-- The effect trace of one full `runSync` cycle: nothing at all when the
tracked list is empty (`runSync` returns before doing any work or write);
otherwise the per-conversation pipelines in tracked-list order, then exactly
one store write whose payload is the batched config produced by
`batchUpdateSync`. -/
def runCycleEffects (emailEnabled : Bool) (extract : TrackedConversation → ExtractOutcome)
    (nowAt : Nat → Int) (globalNow : Int) (config : SyncConfig) : List SyncEffect :=
  if config.trackedConversations.isEmpty then []
  else
    (config.trackedConversations.flatMap fun conv =>
        conversationEffects emailEnabled conv (extract conv))
      ++ [SyncEffect.storeWrite
            (batchUpdateSync config
              (cycleUpdates extract nowAt config.trackedConversations 0) (some globalNow))]

/-- The emails passed to the mail transport within an effect trace. -/
def sentEmailsOf (effects : List SyncEffect) : List EmailMessage :=
  effects.filterMap fun e =>
    match e with
    | .emailSend email => some email
    | _ => none

/-- The messages logged in simulation mode within an effect trace. -/
def simulatedMessagesOf (effects : List SyncEffect) : List Message :=
  effects.filterMap fun e =>
    match e with
    | .simulateEmail msg => some msg
    | _ => none

/-- Number of store writes in an effect trace. -/
def storeWriteCount (effects : List SyncEffect) : Nat :=
  (effects.filter fun e =>
    match e with
    | .storeWrite _ => true
    | _ => false).length

/-! ## ConfigManager.addTrackedConversation -/

/-- The argument of `addTrackedConversation`
(`Omit<TrackedConversation, 'addedDate'>`). -/
structure ConversationInput where
  chatIdentifier : String
  displayName : String
  participants : List String
  isGroup : Bool
  lastSyncDate : Option Int
  lastMessageId : Option String
deriving Repr, DecidableEq

/-- The `findIndex`-and-replace-or-push step of `addTrackedConversation`:
replace the first entry with the same `chatIdentifier`, else append. -/
def replaceFirstOrAppend (cid : String) (t : TrackedConversation) :
    List TrackedConversation → List TrackedConversation
  | [] => [t]
  | c :: rest =>
    if c.chatIdentifier = cid then t :: rest
    else c :: replaceFirstOrAppend cid t rest

/-- `ConfigManager.addTrackedConversation` (the batching variant): build the
entry with `addedDate := now` and `lastSyncDate := now` (overriding any input
watermark — "Set to now so we only email new messages going forward"), then
replace-or-append and save. -/
def addTrackedConversation (config : SyncConfig) (conversation : ConversationInput)
    (now : Int) : SyncConfig :=
  let trackedConversation : TrackedConversation :=
    { chatIdentifier := conversation.chatIdentifier
      displayName := conversation.displayName
      participants := conversation.participants
      isGroup := conversation.isGroup
      addedDate := now
      lastSyncDate := some now
      lastMessageId := conversation.lastMessageId }
  { config with
    trackedConversations :=
      replaceFirstOrAppend conversation.chatIdentifier trackedConversation
        config.trackedConversations }

/-! ## Scheduler (the cron callback guard of `SyncService.start`) -/

/-- Scheduler state: the `isRunning` flag, plus counters for completed cycles
and skip warnings (observable log outcomes). -/
structure SchedulerState where
  isRunning : Bool
  completedCycles : Nat
  skippedTicks : Nat
deriving Repr, DecidableEq

/-- Events at the scheduler level: a cron `tick` firing, and the in-flight
cycle's completion (`runSync`'s `finally` clearing `isRunning`). -/
inductive SchedulerEvent where
  | tick
  | finish
deriving Repr, DecidableEq

/-- One step of the cron callback: a tick while running only logs a skip and
returns (never queued); a tick while idle starts a cycle (`isRunning := true`);
`finish` ends the in-flight cycle, counting one completed cycle. -/
def schedulerStep (s : SchedulerState) : SchedulerEvent → SchedulerState
  | .tick =>
    if s.isRunning then { s with skippedTicks := s.skippedTicks + 1 }
    else { s with isRunning := true }
  | .finish =>
    if s.isRunning then
      { s with isRunning := false, completedCycles := s.completedCycles + 1 }
    else s

/-- Folding a sequence of scheduler events. -/
def schedulerRun (s : SchedulerState) (events : List SchedulerEvent) : SchedulerState :=
  events.foldl schedulerStep s

/-! ## Lemmas about `cycleUpdates` -/

/-- Every update collected by the loop carries `nowAt k - 5000` for the position
`k` at which its conversation was processed, and stems from a tracked
conversation that reported new messages. -/
theorem cycleUpdates_mem (extract : TrackedConversation → ExtractOutcome)
    (nowAt : Nat → Int) :
    ∀ (tracked : List TrackedConversation) (k0 : Nat),
      ∀ u ∈ cycleUpdates extract nowAt tracked k0,
        ∃ k, k0 ≤ k ∧ u.lastSyncDate = nowAt k - 5000
          ∧ ∃ conv ∈ tracked, u.chatIdentifier = conv.chatIdentifier
              ∧ 0 < syncConversationCount conv (extract conv) := by
  intro tracked
  induction tracked with
  | nil => intro k0 u hu; exact absurd hu (by simp [cycleUpdates])
  | cons conv rest ih =>
    intro k0 u hu
    by_cases hc : 0 < syncConversationCount conv (extract conv)
    · rw [cycleUpdates, if_pos hc] at hu
      cases List.mem_cons.mp hu with
      | inl he =>
        exact ⟨k0, le_refl k0, by rw [he], conv, List.mem_cons_self conv rest, by rw [he], hc⟩
      | inr hr =>
        obtain ⟨k, hk, hval, conv2, hconv2, hcid, hcnt⟩ := ih (k0 + 1) u hr
        exact ⟨k, le_trans (Nat.le_succ k0) hk, hval, conv2,
          List.mem_cons_of_mem conv hconv2, hcid, hcnt⟩
    · rw [cycleUpdates, if_neg hc] at hu
      obtain ⟨k, hk, hval, conv2, hconv2, hcid, hcnt⟩ := ih (k0 + 1) u hu
      exact ⟨k, le_trans (Nat.le_succ k0) hk, hval, conv2,
        List.mem_cons_of_mem conv hconv2, hcid, hcnt⟩

/-- The loop is insensitive to anything about the extraction outcomes except the
"found new messages" verdict: the committed timestamps never depend on the
message timestamps. -/
theorem cycleUpdates_congr (extract extract2 : TrackedConversation → ExtractOutcome)
    (nowAt : Nat → Int)
    (h : ∀ conv, (0 < syncConversationCount conv (extract conv))
        ↔ (0 < syncConversationCount conv (extract2 conv))) :
    ∀ (tracked : List TrackedConversation) (k0 : Nat),
      cycleUpdates extract nowAt tracked k0 = cycleUpdates extract2 nowAt tracked k0 := by
  intro tracked
  induction tracked with
  | nil => intro k0; rfl
  | cons conv rest ih =>
    intro k0
    by_cases hc : 0 < syncConversationCount conv (extract conv)
    · rw [cycleUpdates, if_pos hc, cycleUpdates, if_pos ((h conv).mp hc), ih]
    · rw [cycleUpdates, if_neg hc, cycleUpdates, if_neg (fun hc2 => hc ((h conv).mpr hc2)), ih]

/-- Processing a concatenation processes both parts in order, the second part
starting after the first part's positions. -/
theorem cycleUpdates_append (extract : TrackedConversation → ExtractOutcome)
    (nowAt : Nat → Int) :
    ∀ (xs ys : List TrackedConversation) (k0 : Nat),
      cycleUpdates extract nowAt (xs ++ ys) k0
        = cycleUpdates extract nowAt xs k0
            ++ cycleUpdates extract nowAt ys (k0 + xs.length) := by
  intro xs
  induction xs with
  | nil => intro ys k0; simp [cycleUpdates]
  | cons conv rest ih =>
    intro ys k0
    have harith : k0 + 1 + rest.length = k0 + (rest.length + 1) := by omega
    by_cases hc : 0 < syncConversationCount conv (extract conv)
    · rw [List.cons_append, cycleUpdates, if_pos hc, cycleUpdates, if_pos hc,
        ih ys (k0 + 1), harith]
      simp [List.length_cons]
    · rw [List.cons_append, cycleUpdates, if_neg hc, cycleUpdates, if_neg hc,
        ih ys (k0 + 1), harith]
      simp [List.length_cons]

/-- Successive updates carry non-decreasing timestamps when the wall clock is
non-decreasing. -/
theorem cycleUpdates_pairwise (extract : TrackedConversation → ExtractOutcome)
    (nowAt : Nat → Int) (hmono : ∀ i j, i ≤ j → nowAt i ≤ nowAt j) :
    ∀ (tracked : List TrackedConversation) (k0 : Nat),
      (cycleUpdates extract nowAt tracked k0).Pairwise
        (fun u v => u.lastSyncDate ≤ v.lastSyncDate) := by
  intro tracked
  induction tracked with
  | nil => intro k0; simp [cycleUpdates]
  | cons conv rest ih =>
    intro k0
    by_cases hc : 0 < syncConversationCount conv (extract conv)
    · rw [cycleUpdates, if_pos hc]
      refine List.pairwise_cons.mpr ⟨?_, ih (k0 + 1)⟩
      intro v hv
      obtain ⟨k, hk, hval, _⟩ := cycleUpdates_mem extract nowAt rest (k0 + 1) v hv
      simp only [hval]
      have := hmono k0 k (le_trans (Nat.le_succ k0) hk)
      omega
    · rw [cycleUpdates, if_neg hc]
      exact ih (k0 + 1)

/-! ## Lemmas about `applyConversationUpdate` and the batched fold -/

/-- Composing pointwise list relations. -/
theorem forall2_comp {α : Type} {R S T : α → α → Prop}
    (h : ∀ a b c, R a b → S b c → T a c) :
    ∀ {l1 l2 l3 : List α}, List.Forall₂ R l1 l2 → List.Forall₂ S l2 l3 →
      List.Forall₂ T l1 l3 := by
  intro l1 l2 l3 h12
  induction h12 generalizing l3 with
  | nil => intro h23; cases h23; exact List.Forall₂.nil
  | cons hab h12r ih =>
    intro h23
    cases h23 with
    | cons hbc h23r => exact List.Forall₂.cons (h _ _ _ hab hbc) (ih h23r)

/-- A pointwise relation read off backwards: each element of the right list is
related to some element of the left list. -/
theorem forall2_mem_right {α : Type} {R : α → α → Prop} :
    ∀ {l1 l2 : List α}, List.Forall₂ R l1 l2 → ∀ b ∈ l2, ∃ a ∈ l1, R a b := by
  intro l1 l2 h
  induction h with
  | nil => intro b hb; exact absurd hb (by simp)
  | cons hab hr ih =>
    intro b hb
    cases List.mem_cons.mp hb with
    | inl he => exact ⟨_, List.mem_cons_self _ _, he ▸ hab⟩
    | inr he =>
      obtain ⟨a, ha, hr2⟩ := ih b he
      exact ⟨a, List.mem_cons_of_mem _ ha, hr2⟩

/-- Applying one update leaves each entry unchanged or (for an entry whose id is
the update's target) rewrites its watermark to the update's timestamp. -/
theorem applyConversationUpdate_forall2 (convs : List TrackedConversation)
    (u : ConversationUpdate) :
    List.Forall₂
      (fun a b => b = a ∨ (a.chatIdentifier = u.chatIdentifier
        ∧ b.chatIdentifier = a.chatIdentifier ∧ b.lastSyncDate = some u.lastSyncDate))
      convs (applyConversationUpdate convs u) := by
  induction convs with
  | nil => exact List.Forall₂.nil
  | cons c rest ih =>
    by_cases hc : c.chatIdentifier = u.chatIdentifier
    · rw [applyConversationUpdate, if_pos hc]
      exact List.Forall₂.cons (Or.inr ⟨hc, rfl, rfl⟩)
        (List.forall₂_same.mpr (fun a _ => Or.inl rfl))
    · rw [applyConversationUpdate, if_neg hc]
      exact List.Forall₂.cons (Or.inl rfl) ih

/-- An entry whose id is not targeted by any update of the batch survives the
whole fold unchanged. -/
theorem batch_fold_untouched :
    ∀ (us : List ConversationUpdate) (convs : List TrackedConversation),
      List.Forall₂
        (fun a b => (∀ u ∈ us, u.chatIdentifier ≠ a.chatIdentifier) → b = a)
        convs (us.foldl applyConversationUpdate convs) := by
  intro us
  induction us with
  | nil =>
    intro convs
    exact List.forall₂_same.mpr (fun a _ _ => rfl)
  | cons u rest ih =>
    intro convs
    have h1 := applyConversationUpdate_forall2 convs u
    have h2 := ih (applyConversationUpdate convs u)
    refine forall2_comp ?_ h1 h2
    intro a b c hab hbc hall
    have hua : u.chatIdentifier ≠ a.chatIdentifier := hall u (List.mem_cons_self u rest)
    have hba : b = a := by
      cases hab with
      | inl he => exact he
      | inr he => exact absurd he.1.symm hua
    rw [hba] at hbc
    exact hbc (fun v hv => hall v (List.mem_cons_of_mem u hv))

/-- Pointwise watermark progress: a stored watermark may only grow. -/
def watermarkLE (a b : Option Int) : Prop :=
  ∀ w, a = some w → ∃ w2, b = some w2 ∧ w ≤ w2

theorem watermarkLE_refl (a : Option Int) : watermarkLE a a :=
  fun w h => ⟨w, h, le_refl w⟩

/-- Applying a single update whose timestamp dominates every stored watermark
keeps ids and never decreases watermarks. -/
theorem applyConversationUpdate_monotone (convs : List TrackedConversation)
    (u : ConversationUpdate)
    (hdom : ∀ c ∈ convs, ∀ w, c.lastSyncDate = some w → w ≤ u.lastSyncDate) :
    List.Forall₂
      (fun a b => b.chatIdentifier = a.chatIdentifier
        ∧ watermarkLE a.lastSyncDate b.lastSyncDate)
      convs (applyConversationUpdate convs u) := by
  have h := applyConversationUpdate_forall2 convs u
  have hmem := List.forall₂_iff_get.mp h
  refine List.forall₂_iff_get.mpr ⟨hmem.1, ?_⟩
  intro i h1 h2
  have hi := hmem.2 i h1 h2
  cases hi with
  | inl he =>
    rw [he]
    exact ⟨rfl, watermarkLE_refl _⟩
  | inr he =>
    refine ⟨he.2.1, ?_⟩
    intro w hw
    refine ⟨u.lastSyncDate, he.2.2, ?_⟩
    exact hdom _ (List.get_mem convs i h1) w hw

/-- Folding a batch of non-decreasing update timestamps that all dominate the
initially stored watermarks keeps ids and never decreases any watermark. -/
theorem batch_fold_monotone :
    ∀ (us : List ConversationUpdate) (convs : List TrackedConversation),
      (∀ u ∈ us, ∀ c ∈ convs, ∀ w, c.lastSyncDate = some w → w ≤ u.lastSyncDate) →
      us.Pairwise (fun u v => u.lastSyncDate ≤ v.lastSyncDate) →
      List.Forall₂
        (fun a b => b.chatIdentifier = a.chatIdentifier
          ∧ watermarkLE a.lastSyncDate b.lastSyncDate)
        convs (us.foldl applyConversationUpdate convs) := by
  intro us
  induction us with
  | nil =>
    intro convs _ _
    exact List.forall₂_same.mpr (fun a _ => ⟨rfl, watermarkLE_refl _⟩)
  | cons u rest ih =>
    intro convs hdom hpair
    have hdomu : ∀ c ∈ convs, ∀ w, c.lastSyncDate = some w → w ≤ u.lastSyncDate :=
      hdom u (List.mem_cons_self u rest)
    have h1 := applyConversationUpdate_monotone convs u hdomu
    have hpair2 := (List.pairwise_cons.mp hpair)
    have hdom2 : ∀ v ∈ rest, ∀ c ∈ applyConversationUpdate convs u,
        ∀ w, c.lastSyncDate = some w → w ≤ v.lastSyncDate := by
      intro v hv c hc w hw
      have hforall := applyConversationUpdate_forall2 convs u
      obtain ⟨a, ha, hrel⟩ := forall2_mem_right hforall c hc
      cases hrel with
      | inl he =>
        exact hdom v (List.mem_cons_of_mem u hv) a ha w (by rw [← he]; exact hw)
      | inr he =>
        have hwu : w = u.lastSyncDate := by
          rw [he.2.2] at hw
          exact (Option.some_inj.mp hw).symm
        rw [hwu]
        exact hpair2.1 v hv
    have h2 := ih (applyConversationUpdate convs u) hdom2 hpair2.2
    refine forall2_comp ?_ h1 h2
    intro a b c hab hbc
    refine ⟨hbc.1.trans hab.1, ?_⟩
    intro w hw
    obtain ⟨w2, hw2, hle2⟩ := hab.2 w hw
    obtain ⟨w3, hw3, hle3⟩ := hbc.2 w2 hw2
    exact ⟨w3, hw3, le_trans hle2 hle3⟩

/-! ## Lemmas about the effect trace -/

/-- The marker used by `storeWriteCount`. -/
def isStoreWrite (e : SyncEffect) : Bool :=
  match e with
  | .storeWrite _ => true
  | _ => false

theorem fileEffects_no_storeWrite (enabled : Bool) (conv : TrackedConversation)
    (messages : List Message) :
    ∀ e ∈ fileEffects enabled conv messages, isStoreWrite e = false := by
  intro e he
  by_cases h1 : (newReceivedMessagesOf conv messages).isEmpty
  · simp only [fileEffects, h1, if_pos] at he
    exact absurd he (List.not_mem_nil e)
  · by_cases hen : enabled
    · simp only [fileEffects, h1, hen, Bool.false_eq_true, if_false, if_pos] at he
      obtain ⟨email, _, heq⟩ := List.mem_map.mp he
      rw [← heq]; rfl
    · simp only [fileEffects, h1, hen, Bool.false_eq_true, if_false] at he
      obtain ⟨msg, _, heq⟩ := List.mem_map.mp he
      rw [← heq]; rfl

theorem conversationEffects_no_storeWrite (enabled : Bool) (conv : TrackedConversation)
    (outcome : ExtractOutcome) :
    ∀ e ∈ conversationEffects enabled conv outcome, isStoreWrite e = false := by
  intro e he
  cases outcome with
  | exportFailed =>
    rcases List.mem_cons.mp he with rfl | h2
    · rfl
    · rcases List.mem_singleton.mp h2 with rfl
      rfl
  | parseFailed parsedBefore =>
    rcases List.mem_cons.mp he with rfl | h2
    · rfl
    · rcases List.mem_append.mp h2 with h3 | h4
      · obtain ⟨messages, _, h5⟩ := List.mem_flatMap.mp h3
        exact fileEffects_no_storeWrite enabled conv messages e h5
      · rcases List.mem_singleton.mp h4 with rfl
        rfl
  | ok files =>
    rcases List.mem_cons.mp he with rfl | h2
    · rfl
    · obtain ⟨messages, _, h5⟩ := List.mem_flatMap.mp h2
      exact fileEffects_no_storeWrite enabled conv messages e h5

theorem storeWriteCount_eq (effects : List SyncEffect) :
    storeWriteCount effects = (effects.filter isStoreWrite).length := by
  unfold storeWriteCount isStoreWrite
  rfl

/-! ## Messages behind the emails and behind the simulation log -/

theorem newReceived_not_fromMe (conv : TrackedConversation) (messages : List Message) :
    ∀ m ∈ newReceivedMessagesOf conv messages, m.isFromMe = false := by
  intro m hm
  have h := (List.mem_filter.mp hm).2
  simpa using h

theorem sentEmailsOf_map_email (es : List EmailMessage) :
    sentEmailsOf (es.map SyncEffect.emailSend) = es := by
  induction es with
  | nil => rfl
  | cons e rest ih => simp [sentEmailsOf, List.filterMap] at ih ⊢; exact ih

theorem sentEmailsOf_cons_export (cid : String) (l : List SyncEffect) :
    sentEmailsOf (SyncEffect.exportRun cid :: l) = sentEmailsOf l := by
  simp [sentEmailsOf]

theorem sentEmailsOf_map_sim (ms : List Message) :
    sentEmailsOf (ms.map SyncEffect.simulateEmail) = [] := by
  induction ms with
  | nil => rfl
  | cons m rest ih => simp [sentEmailsOf, List.filterMap] at ih ⊢

theorem simulatedMessagesOf_map_sim (ms : List Message) :
    simulatedMessagesOf (ms.map SyncEffect.simulateEmail) = ms := by
  induction ms with
  | nil => rfl
  | cons m rest ih => simpa [simulatedMessagesOf, List.filterMap] using ih

/-- Every message logged in simulation mode by one conversation's pipeline is an
incoming message of that conversation's batch. -/
theorem sentEmailsOf_append (l1 l2 : List SyncEffect) :
    sentEmailsOf (l1 ++ l2) = sentEmailsOf l1 ++ sentEmailsOf l2 := by
  simp [sentEmailsOf, List.filterMap_append]

theorem sentEmailsOf_flatMap (g : List Message → List SyncEffect)
    (l : List (List Message)) :
    sentEmailsOf (l.flatMap g) = l.flatMap fun a => sentEmailsOf (g a) := by
  induction l with
  | nil => rfl
  | cons a rest ih => simp [List.flatMap_cons, sentEmailsOf_append, ih]

/-- The emails one completed file iteration hands to the transport: exactly the
ones built from that file's incoming batch (none in simulation mode or when the
file brought no incoming message). -/
theorem sentEmailsOf_fileEffects (emailEnabled : Bool) (conv : TrackedConversation)
    (messages : List Message) :
    sentEmailsOf (fileEffects emailEnabled conv messages)
      = if emailEnabled && !(newReceivedMessagesOf conv messages).isEmpty
        then convertConversationToEmail (newReceivedMessagesOf conv messages)
              conv.displayName conv.chatIdentifier
        else [] := by
  by_cases h1 : (newReceivedMessagesOf conv messages).isEmpty
  · rw [if_neg (by simp [h1])]
    have hdef : fileEffects emailEnabled conv messages = [] := by
      simp [fileEffects, h1]
    rw [hdef]
    rfl
  · by_cases hen : emailEnabled
    · subst hen
      rw [if_pos (by simp [h1])]
      have hdef : fileEffects true conv messages
          = (convertConversationToEmail (newReceivedMessagesOf conv messages)
              conv.displayName conv.chatIdentifier).map SyncEffect.emailSend := by
        simp [fileEffects, h1]
      rw [hdef, sentEmailsOf_map_email]
    · have hen2 : emailEnabled = false := by simpa using hen
      subst hen2
      rw [if_neg (by simp)]
      have hdef : fileEffects false conv messages
          = (newReceivedMessagesOf conv messages).map SyncEffect.simulateEmail := by
        simp [fileEffects, h1]
      rw [hdef, sentEmailsOf_map_sim]

/-- The emails a conversation's pipeline hands to the transport are exactly the
per-file dispatches of the files whose loop iteration completed — also on a
parse failure, where the files before the throw have already dispatched. -/
theorem sentEmailsOf_conversationEffects (enabled : Bool)
    (conv : TrackedConversation) (outcome : ExtractOutcome) :
    sentEmailsOf (conversationEffects enabled conv outcome)
      = (processedFiles outcome).flatMap
          fun messages => sentEmailsOf (fileEffects enabled conv messages) := by
  cases outcome with
  | exportFailed => rfl
  | parseFailed parsedBefore =>
    show sentEmailsOf (SyncEffect.exportRun conv.chatIdentifier ::
        (parsedBefore.flatMap (fileEffects enabled conv)
          ++ [SyncEffect.logError conv.chatIdentifier])) = _
    rw [sentEmailsOf_cons_export, sentEmailsOf_append, sentEmailsOf_flatMap]
    simp [sentEmailsOf, processedFiles]
  | ok files =>
    show sentEmailsOf (SyncEffect.exportRun conv.chatIdentifier ::
        files.flatMap (fileEffects enabled conv)) = _
    rw [sentEmailsOf_cons_export, sentEmailsOf_flatMap]
    rfl

/-- Every message logged in simulation mode by one file iteration is an
incoming message of that file's batch. -/
theorem simulated_sources_file (enabled : Bool) (conv : TrackedConversation)
    (messages : List Message) :
    ∀ m ∈ simulatedMessagesOf (fileEffects enabled conv messages),
      m ∈ newReceivedMessagesOf conv messages := by
  intro m hm
  obtain ⟨e, he, hfe⟩ := List.mem_filterMap.mp hm
  by_cases h1 : (newReceivedMessagesOf conv messages).isEmpty
  · simp only [fileEffects, h1, if_pos] at he
    exact absurd he (List.not_mem_nil e)
  · by_cases hen : enabled
    · simp only [fileEffects, h1, hen, Bool.false_eq_true, if_false, if_pos] at he
      obtain ⟨email, _, heq⟩ := List.mem_map.mp he
      rw [← heq] at hfe
      exact absurd hfe (by simp)
    · simp only [fileEffects, h1, hen, Bool.false_eq_true, if_false] at he
      obtain ⟨msg, hmsg, heq⟩ := List.mem_map.mp he
      rw [← heq] at hfe
      have hmm : msg = m := by simpa using hfe
      rw [← hmm]
      exact hmsg

/-- Every message logged in simulation mode by one conversation's pipeline is
an incoming message of one of its processed files' batches. -/
theorem simulated_sources (enabled : Bool) (conv : TrackedConversation)
    (outcome : ExtractOutcome) :
    ∀ m ∈ simulatedMessagesOf (conversationEffects enabled conv outcome),
      ∃ messages ∈ processedFiles outcome, m ∈ newReceivedMessagesOf conv messages := by
  intro m hm
  obtain ⟨e, he, hfe⟩ := List.mem_filterMap.mp hm
  cases outcome with
  | exportFailed =>
    rcases List.mem_cons.mp he with rfl | h2
    · exact absurd hfe (by simp)
    · rcases List.mem_singleton.mp h2 with rfl
      exact absurd hfe (by simp)
  | parseFailed parsedBefore =>
    rcases List.mem_cons.mp he with rfl | h2
    · exact absurd hfe (by simp)
    · rcases List.mem_append.mp h2 with h3 | h4
      · obtain ⟨messages, hmsgs, h5⟩ := List.mem_flatMap.mp h3
        exact ⟨messages, hmsgs, simulated_sources_file enabled conv messages m
          (List.mem_filterMap.mpr ⟨e, h5, hfe⟩)⟩
      · rcases List.mem_singleton.mp h4 with rfl
        exact absurd hfe (by simp)
  | ok files =>
    rcases List.mem_cons.mp he with rfl | h2
    · exact absurd hfe (by simp)
    · obtain ⟨messages, hmsgs, h5⟩ := List.mem_flatMap.mp h2
      exact ⟨messages, hmsgs, simulated_sources_file enabled conv messages m
        (List.mem_filterMap.mpr ⟨e, h5, hfe⟩)⟩

/-! ## Claim C1 — what the committed watermark actually is -/

/-- C1 counterexample: a cycle at wall clock 1000000 whose batch for the
conversation is one message timestamped 10 commits watermark 995000
(`Date.now() - 5000`), not the batch's maximum timestamp 10. -/
theorem C1_counterexample :
    cycleUpdates
        (fun _ => ExtractOutcome.ok [[⟨"g0", "hello", 10, false, "h", "c0"⟩]])
        (fun _ => 1000000)
        [⟨"c0", "C", ["p"], false, 0, some 0, none⟩] 0
      = [⟨"c0", 995000, none⟩]
    ∧ newMessagesOf ⟨"c0", "C", ["p"], false, 0, some 0, none⟩
        [⟨"g0", "hello", 10, false, "h", "c0"⟩]
      = [⟨"g0", "hello", 10, false, "h", "c0"⟩]
    ∧ (995000 : Int) ≠ 10 :=
  ⟨by decide, by decide, by decide⟩

/-- C1 (amended): the watermark committed for a conversation that reported new
messages equals the wall clock read when that conversation was processed minus
the fixed 5-second buffer, and is entirely independent of which messages were
in the batch (only the "found new messages" verdict matters). -/
theorem C1_watermark_is_wallclock (extract : TrackedConversation → ExtractOutcome)
    (nowAt : Nat → Int) (tracked : List TrackedConversation) (k0 : Nat)
    (u : ConversationUpdate) (hu : u ∈ cycleUpdates extract nowAt tracked k0) :
    (∃ k, k0 ≤ k ∧ u.lastSyncDate = nowAt k - 5000)
    ∧ ∀ extract2 : TrackedConversation → ExtractOutcome,
        (∀ conv, (0 < syncConversationCount conv (extract conv))
          ↔ (0 < syncConversationCount conv (extract2 conv))) →
        cycleUpdates extract nowAt tracked k0 = cycleUpdates extract2 nowAt tracked k0 := by
  constructor
  · obtain ⟨k, hk, hval, _⟩ := cycleUpdates_mem extract nowAt tracked k0 u hu
    exact ⟨k, hk, hval⟩
  · intro extract2 hsame
    exact cycleUpdates_congr extract extract2 nowAt hsame tracked k0

/-- Witness for C1 (amended) at the concrete cycle of the counterexample. -/
theorem C1_watermark_is_wallclock_witness :
    (⟨"c0", 995000, none⟩ : ConversationUpdate) ∈ cycleUpdates
        (fun _ => ExtractOutcome.ok [[⟨"g0", "hello", 10, false, "h", "c0"⟩]])
        (fun _ => 1000000)
        [⟨"c0", "C", ["p"], false, 0, some 0, none⟩] 0
    ∧ ((∃ k, 0 ≤ k ∧ (⟨"c0", 995000, none⟩ : ConversationUpdate).lastSyncDate
          = (fun _ : Nat => (1000000 : Int)) k - 5000)
        ∧ ∀ extract2 : TrackedConversation → ExtractOutcome,
            (∀ conv, (0 < syncConversationCount conv
                ((fun _ => ExtractOutcome.ok [[⟨"g0", "hello", 10, false, "h", "c0"⟩]]) conv))
              ↔ (0 < syncConversationCount conv (extract2 conv))) →
            cycleUpdates (fun _ => ExtractOutcome.ok [[⟨"g0", "hello", 10, false, "h", "c0"⟩]])
                (fun _ => 1000000) [⟨"c0", "C", ["p"], false, 0, some 0, none⟩] 0
              = cycleUpdates extract2 (fun _ => 1000000)
                  [⟨"c0", "C", ["p"], false, 0, some 0, none⟩] 0) :=
  ⟨by decide,
   C1_watermark_is_wallclock _ _ _ 0 ⟨"c0", 995000, none⟩ (by decide)⟩

/-! ## Claim C2 — the delta filter and the 2-minute buffer -/

/-- The per-cycle filter as claim C2 words it, for comparison with the code's
`isNewMessage`: keep exactly messages with timestamp strictly greater than
`watermark - bufferMs` (the spec's `effectiveWatermark`). -/
def specBufferedKeep (watermark : Int) (msg : Message) : Bool :=
  watermark - bufferMs < msg.date

/-- C2 counterexample: with watermark w = 200000, the message timestamped
exactly w lies in the interval (w - 2 min, w], so the claimed buffered filter
keeps it, but the code's filter (`msg.date > conv.lastSyncDate`, no buffer)
drops it: the cycle's batch is empty. -/
theorem C2_counterexample :
    bufferMs = 120000
    ∧ specBufferedKeep 200000 ⟨"g", "hi", 200000, false, "h", "c0"⟩ = true
    ∧ isNewMessage ⟨"c0", "C", ["p"], false, 0, some 200000, none⟩
        ⟨"g", "hi", 200000, false, "h", "c0"⟩ = false
    ∧ newMessagesOf ⟨"c0", "C", ["p"], false, 0, some 200000, none⟩
        [⟨"g", "hi", 200000, false, "h", "c0"⟩] = [] :=
  ⟨by decide, by decide, by decide, by decide⟩

/-- C2 (amended): for a conversation with watermark w, the cycle's batch keeps
exactly the exported messages with timestamp strictly greater than w itself; the
2-minute buffer is only subtracted into the `startDate` value, which is not
passed to the exporter and never consulted by the filter. -/
theorem C2_filter_unbuffered (conv : TrackedConversation) (w : Int)
    (hw : conv.lastSyncDate = some w) (messages : List Message) (now : Int) :
    (∀ m, m ∈ newMessagesOf conv messages ↔ (m ∈ messages ∧ w < m.date))
    ∧ bufferedStartDate conv now = w - bufferMs := by
  constructor
  · intro m
    simp [newMessagesOf, List.mem_filter, isNewMessage, hw]
  · simp [bufferedStartDate, hw]

/-- Witness for C2 (amended) at a concrete conversation and batch. -/
theorem C2_filter_unbuffered_witness :
    (⟨"c0", "C", ["p"], false, 0, some 200000, none⟩ :
        TrackedConversation).lastSyncDate = some 200000
    ∧ ((∀ m, m ∈ newMessagesOf ⟨"c0", "C", ["p"], false, 0, some 200000, none⟩
          [⟨"g", "hi", 200000, false, "h", "c0"⟩,
           ⟨"g2", "yo", 200001, false, "h", "c0"⟩]
        ↔ (m ∈ [⟨"g", "hi", 200000, false, "h", "c0"⟩,
                ⟨"g2", "yo", 200001, false, "h", "c0"⟩] ∧ (200000 : Int) < m.date))
      ∧ bufferedStartDate ⟨"c0", "C", ["p"], false, 0, some 200000, none⟩ 300000
          = 200000 - bufferMs) :=
  ⟨by decide,
   C2_filter_unbuffered ⟨"c0", "C", ["p"], false, 0, some 200000, none⟩ 200000
     (by decide) _ 300000⟩

/-! ## Claim C3 — watermark monotonicity across cycles -/

/-- C3 counterexample: conversation watermark 10000 (e.g. set when it was added
to tracking). Cycle 1 (wall clock 11000) finds nothing new and leaves the
watermark at 10000; cycle 2 (wall clock 12000) finds one new message and — both
commits succeeding, no reset — commits `12000 - 5000 = 7000 < 10000`: the
watermark after cycle 2 is smaller than after cycle 1. -/
theorem C3_counterexample :
    (runCycle true (fun _ => ExtractOutcome.ok []) (fun _ => 11000) 11000
        ⟨[⟨"c0", "C", ["p"], false, 10000, some 10000, none⟩], 1, none, true,
          "info"⟩).trackedConversations.map TrackedConversation.lastSyncDate
      = [some 10000]
    ∧ (runCycle true
          (fun _ => ExtractOutcome.ok [[⟨"gN", "new", 11500, false, "h", "c0"⟩]])
          (fun _ => 12000) 12000
          (runCycle true (fun _ => ExtractOutcome.ok []) (fun _ => 11000) 11000
            ⟨[⟨"c0", "C", ["p"], false, 10000, some 10000, none⟩], 1, none, true,
              "info"⟩)).trackedConversations.map TrackedConversation.lastSyncDate
      = [some 7000]
    ∧ ¬ ((10000 : Int) ≤ 7000) :=
  ⟨by decide, by decide, by decide⟩

/-- C3 (amended): a successfully committed cycle keeps each tracked entry's
identity and never decreases its watermark, provided the wall clock is
non-decreasing over the cycle and the cycle runs at least 5 seconds after every
stored watermark (the committed value is the wall clock minus 5 s, so a cycle
running within 5 s of a freshly written watermark can move it backwards, as the
counterexample shows). Applied to the state after cycle N, this gives
watermark(after cycle N+1) ≥ watermark(after cycle N). -/
theorem C3_watermark_monotone (extract : TrackedConversation → ExtractOutcome)
    (nowAt : Nat → Int) (globalNow : Int) (config : SyncConfig)
    (hmono : ∀ i j, i ≤ j → nowAt i ≤ nowAt j)
    (hgap : ∀ c ∈ config.trackedConversations, ∀ w, c.lastSyncDate = some w →
      ∀ k, w ≤ nowAt k - 5000) :
    List.Forall₂
      (fun a b => b.chatIdentifier = a.chatIdentifier
        ∧ watermarkLE a.lastSyncDate b.lastSyncDate)
      config.trackedConversations
      (runCycle true extract nowAt globalNow config).trackedConversations := by
  have hdom : ∀ u ∈ cycleUpdates extract nowAt config.trackedConversations 0,
      ∀ c ∈ config.trackedConversations, ∀ w, c.lastSyncDate = some w →
        w ≤ u.lastSyncDate := by
    intro u hu c hc w hw
    obtain ⟨k, _, hval, _⟩ :=
      cycleUpdates_mem extract nowAt config.trackedConversations 0 u hu
    rw [hval]
    exact hgap c hc w hw k
  have hpair := cycleUpdates_pairwise extract nowAt hmono config.trackedConversations 0
  have h := batch_fold_monotone
    (cycleUpdates extract nowAt config.trackedConversations 0)
    config.trackedConversations hdom hpair
  by_cases hemp : config.trackedConversations.isEmpty
  · have hrc : runCycle true extract nowAt globalNow config = config := by
      simp [runCycle, hemp]
    rw [hrc]
    exact List.forall₂_same.mpr (fun a _ => ⟨rfl, watermarkLE_refl _⟩)
  · have hemp2 : config.trackedConversations.isEmpty = false := by
      simpa using hemp
    simpa [runCycle, hemp2, batchUpdateSync] using h

/-- Witness for C3 (amended): a cycle at wall clock 20000 over a watermark
stored at 10000. -/
theorem C3_watermark_monotone_witness :
    (∀ i j : Nat, i ≤ j →
      (fun _ : Nat => (20000 : Int)) i ≤ (fun _ : Nat => (20000 : Int)) j)
    ∧ (∀ c ∈ (⟨[⟨"c0", "C", ["p"], false, 10000, some 10000, none⟩], 1, none, true,
          "info"⟩ : SyncConfig).trackedConversations,
        ∀ w : Int, c.lastSyncDate = some w →
          ∀ k : Nat, w ≤ (fun _ : Nat => (20000 : Int)) k - 5000)
    ∧ List.Forall₂
        (fun a b => b.chatIdentifier = a.chatIdentifier
          ∧ watermarkLE a.lastSyncDate b.lastSyncDate)
        (⟨[⟨"c0", "C", ["p"], false, 10000, some 10000, none⟩], 1, none, true,
          "info"⟩ : SyncConfig).trackedConversations
        (runCycle true
          (fun _ => ExtractOutcome.ok [[⟨"g", "m", 10500, false, "h", "c0"⟩]])
          (fun _ => 20000) 20000
          ⟨[⟨"c0", "C", ["p"], false, 10000, some 10000, none⟩], 1, none, true,
            "info"⟩).trackedConversations := by
  refine ⟨fun i j _ => le_refl _, ?_, ?_⟩
  · intro c hc w hw k
    have hc2 : c = ⟨"c0", "C", ["p"], false, 10000, some 10000, none⟩ := by
      simpa using hc
    rw [hc2] at hw
    have hw2 : w = 10000 := by simpa using hw.symm
    rw [hw2]
    norm_num
  · refine C3_watermark_monotone _ _ 20000 _ (fun i j _ => le_refl _) ?_
    intro c hc w hw k
    have hc2 : c = ⟨"c0", "C", ["p"], false, 10000, some 10000, none⟩ := by
      simpa using hc
    rw [hc2] at hw
    have hw2 : w = 10000 := by simpa using hw.symm
    rw [hw2]
    norm_num

/-! ## Claim C4 — one batched, all-or-nothing store commit per cycle -/

/-- C4 counterexample: a cycle whose tracked-conversation list is empty takes
the early return at the top of `runSync` and performs zero store writes — and
leaves `lastGlobalSync` untouched — so "each sync cycle writes the store
exactly once" fails on a reachable cycle. -/
theorem C4_counterexample :
    storeWriteCount (runCycleEffects true (fun _ => ExtractOutcome.ok [])
        (fun _ => 0) 0 ⟨[], 1, none, true, "info"⟩) = 0
    ∧ runCycle true (fun _ => ExtractOutcome.ok []) (fun _ => 0) 0
        ⟨[], 1, none, true, "info"⟩
      = ⟨[], 1, none, true, "info"⟩
    ∧ (0 : Nat) ≠ 1 :=
  ⟨by decide, by decide, by decide⟩

/-- C4 (amended): every cycle that reaches the processing loop — i.e. whose
tracked-conversation list is non-empty; an empty list returns early with no
write at all — writes the store exactly once: the trace's single store write is
its last effect, its payload is the config with every collected conversation
update and the global sync time applied by `batchUpdateSync`, a successful
commit installs exactly that payload, and a failed commit leaves the stored
config — hence every conversation's watermark — completely unchanged,
including conversations whose emails were already dispatched. -/
theorem C4_single_atomic_commit (emailEnabled : Bool)
    (extract : TrackedConversation → ExtractOutcome) (nowAt : Nat → Int)
    (globalNow : Int) (config : SyncConfig)
    (hne : config.trackedConversations ≠ []) :
    storeWriteCount (runCycleEffects emailEnabled extract nowAt globalNow config) = 1
    ∧ (runCycleEffects emailEnabled extract nowAt globalNow config).getLast?
        = some (SyncEffect.storeWrite (batchUpdateSync config
            (cycleUpdates extract nowAt config.trackedConversations 0) (some globalNow)))
    ∧ runCycle true extract nowAt globalNow config
        = batchUpdateSync config
            (cycleUpdates extract nowAt config.trackedConversations 0) (some globalNow)
    ∧ runCycle false extract nowAt globalNow config = config := by
  have hemp : config.trackedConversations.isEmpty = false := by
    cases hcfg : config.trackedConversations with
    | nil => exact absurd hcfg hne
    | cons c rest => rfl
  refine ⟨?_, ?_, by simp [runCycle, hemp], by simp [runCycle, hemp]⟩
  · rw [storeWriteCount_eq, runCycleEffects, hemp]
    simp only [Bool.false_eq_true, if_false]
    rw [List.filter_append]
    have hnil : (config.trackedConversations.flatMap fun conv =>
        conversationEffects emailEnabled conv (extract conv)).filter isStoreWrite = [] := by
      rw [List.filter_eq_nil_iff]
      intro e he
      obtain ⟨conv, _, he2⟩ := List.mem_flatMap.mp he
      simp [conversationEffects_no_storeWrite emailEnabled conv (extract conv) e he2]
    rw [hnil]
    rfl
  · rw [runCycleEffects, hemp]
    simp only [Bool.false_eq_true, if_false]
    exact List.getLast?_concat _

/-- Witness for C4 (amended) at a concrete one-conversation cycle. -/
theorem C4_single_atomic_commit_witness :
    (⟨[⟨"c0", "C", ["p"], false, 0, some 0, none⟩], 1, none, true, "info"⟩ :
        SyncConfig).trackedConversations ≠ []
    ∧ (storeWriteCount (runCycleEffects true
          (fun _ => ExtractOutcome.ok [[⟨"g0", "m", 10, false, "h", "c0"⟩]])
          (fun _ => 1000000) 1000000
          ⟨[⟨"c0", "C", ["p"], false, 0, some 0, none⟩], 1, none, true, "info"⟩) = 1
        ∧ (runCycleEffects true
            (fun _ => ExtractOutcome.ok [[⟨"g0", "m", 10, false, "h", "c0"⟩]])
            (fun _ => 1000000) 1000000
            ⟨[⟨"c0", "C", ["p"], false, 0, some 0, none⟩], 1, none, true,
              "info"⟩).getLast?
          = some (SyncEffect.storeWrite (batchUpdateSync
              ⟨[⟨"c0", "C", ["p"], false, 0, some 0, none⟩], 1, none, true, "info"⟩
              (cycleUpdates
                (fun _ => ExtractOutcome.ok [[⟨"g0", "m", 10, false, "h", "c0"⟩]])
                (fun _ => 1000000)
                (⟨[⟨"c0", "C", ["p"], false, 0, some 0, none⟩], 1, none, true,
                  "info"⟩ : SyncConfig).trackedConversations 0) (some 1000000)))
        ∧ runCycle true
            (fun _ => ExtractOutcome.ok [[⟨"g0", "m", 10, false, "h", "c0"⟩]])
            (fun _ => 1000000) 1000000
            ⟨[⟨"c0", "C", ["p"], false, 0, some 0, none⟩], 1, none, true, "info"⟩
          = batchUpdateSync
              ⟨[⟨"c0", "C", ["p"], false, 0, some 0, none⟩], 1, none, true, "info"⟩
              (cycleUpdates
                (fun _ => ExtractOutcome.ok [[⟨"g0", "m", 10, false, "h", "c0"⟩]])
                (fun _ => 1000000)
                (⟨[⟨"c0", "C", ["p"], false, 0, some 0, none⟩], 1, none, true,
                  "info"⟩ : SyncConfig).trackedConversations 0) (some 1000000)
        ∧ runCycle false
            (fun _ => ExtractOutcome.ok [[⟨"g0", "m", 10, false, "h", "c0"⟩]])
            (fun _ => 1000000) 1000000
            ⟨[⟨"c0", "C", ["p"], false, 0, some 0, none⟩], 1, none, true, "info"⟩
          = ⟨[⟨"c0", "C", ["p"], false, 0, some 0, none⟩], 1, none, true, "info"⟩) :=
  ⟨by decide,
   C4_single_atomic_commit true
     (fun _ => ExtractOutcome.ok [[⟨"g0", "m", 10, false, "h", "c0"⟩]])
     (fun _ => 1000000) 1000000
     ⟨[⟨"c0", "C", ["p"], false, 0, some 0, none⟩], 1, none, true, "info"⟩
     (by decide)⟩

/-! ## Claim C5 — no outgoing message is ever emailed -/

/-- C5: across a whole cycle, every message logged in simulation mode is
incoming (`isFromMe = false`); for every conversation the emails handed to the
transport are exactly the per-file dispatches built from each processed file's
`newReceivedMessages` — the batch filtered to non-`isFromMe` messages — and
that list never contains an outgoing message, on every path including a parse
failure after some files were dispatched. Outgoing messages are only counted
and logged. -/
theorem C5_no_outgoing_emails (emailEnabled : Bool)
    (extract : TrackedConversation → ExtractOutcome) (nowAt : Nat → Int)
    (globalNow : Int) (config : SyncConfig) :
    (∀ m ∈ simulatedMessagesOf
        (runCycleEffects emailEnabled extract nowAt globalNow config),
      m.isFromMe = false)
    ∧ (∀ (conv : TrackedConversation) (outcome : ExtractOutcome),
        sentEmailsOf (conversationEffects emailEnabled conv outcome)
          = (processedFiles outcome).flatMap fun messages =>
              if emailEnabled && !(newReceivedMessagesOf conv messages).isEmpty
              then convertConversationToEmail (newReceivedMessagesOf conv messages)
                    conv.displayName conv.chatIdentifier
              else [])
    ∧ (∀ (conv : TrackedConversation) (messages : List Message),
        ∀ m ∈ newReceivedMessagesOf conv messages, m.isFromMe = false) := by
  refine ⟨?_, ?_, fun conv messages => newReceived_not_fromMe conv messages⟩
  · intro m hm
    by_cases hemp : config.trackedConversations.isEmpty
    · rw [runCycleEffects, if_pos hemp] at hm
      exact absurd hm (by simp [simulatedMessagesOf])
    · have hemp2 : config.trackedConversations.isEmpty = false := by simpa using hemp
      rw [runCycleEffects, hemp2] at hm
      simp only [Bool.false_eq_true, if_false] at hm
      obtain ⟨e, he, hfe⟩ := List.mem_filterMap.mp hm
      rcases List.mem_append.mp he with he1 | he2
      · obtain ⟨conv, _, he3⟩ := List.mem_flatMap.mp he1
        have hm2 : m ∈ simulatedMessagesOf
            (conversationEffects emailEnabled conv (extract conv)) :=
          List.mem_filterMap.mpr ⟨e, he3, hfe⟩
        obtain ⟨messages, _, hmem⟩ :=
          simulated_sources emailEnabled conv (extract conv) m hm2
        exact newReceived_not_fromMe conv messages m hmem
      · rcases List.mem_singleton.mp he2 with rfl
        exact absurd hfe (by simp)
  · intro conv outcome
    rw [sentEmailsOf_conversationEffects]
    have hfun : (fun messages => sentEmailsOf (fileEffects emailEnabled conv messages))
        = fun messages =>
            if emailEnabled && !(newReceivedMessagesOf conv messages).isEmpty
            then convertConversationToEmail (newReceivedMessagesOf conv messages)
                  conv.displayName conv.chatIdentifier
            else [] := by
      funext messages
      exact sentEmailsOf_fileEffects emailEnabled conv messages
    rw [hfun]

/-- Witness for C5 at a concrete cycle: a parse-failed extraction whose one
processed file holds one outgoing and one incoming message yields only the
incoming one behind the (simulated) emails. -/
theorem C5_no_outgoing_emails_witness :
    (⟨"gI", "in", 300, false, "h", "c0"⟩ : Message) ∈ simulatedMessagesOf
        (runCycleEffects false
          (fun _ => ExtractOutcome.parseFailed
            [[⟨"gO", "out", 200, true, "me", "c0"⟩,
              ⟨"gI", "in", 300, false, "h", "c0"⟩]])
          (fun _ => 1000000) 1000000
          ⟨[⟨"c0", "C", ["p"], false, 0, some 0, none⟩], 1, none, true, "info"⟩)
    ∧ (⟨"gI", "in", 300, false, "h", "c0"⟩ : Message).isFromMe = false :=
  ⟨by decide,
   (C5_no_outgoing_emails false
      (fun _ => ExtractOutcome.parseFailed
        [[⟨"gO", "out", 200, true, "me", "c0"⟩,
          ⟨"gI", "in", 300, false, "h", "c0"⟩]])
      (fun _ => 1000000) 1000000
      ⟨[⟨"c0", "C", ["p"], false, 0, some 0, none⟩], 1, none, true, "info"⟩).1
    ⟨"gI", "in", 300, false, "h", "c0"⟩ (by decide)⟩
/-! ## Claim C7 — single in-flight cycle -/

/-- C7: a tick that fires while a cycle is running only increments the skip-log
counter (it is dropped, never queued, and neither starts nor completes
anything), and two ticks with overlapping execution windows — tick, tick again
before the first cycle finishes, then the finish — produce exactly one
completed cycle and exactly one skip log entry, ending idle. -/
theorem C7_single_inflight (s t : SchedulerState)
    (hs : s.isRunning = false) (ht : t.isRunning = true) :
    schedulerStep t SchedulerEvent.tick = { t with skippedTicks := t.skippedTicks + 1 }
    ∧ schedulerRun s [SchedulerEvent.tick, SchedulerEvent.tick, SchedulerEvent.finish]
        = { isRunning := false
            completedCycles := s.completedCycles + 1
            skippedTicks := s.skippedTicks + 1 } := by
  constructor
  · simp [schedulerStep, ht]
  · simp [schedulerRun, schedulerStep, hs]

/-- Witness for C7 at concrete scheduler states. -/
theorem C7_single_inflight_witness :
    (⟨false, 0, 0⟩ : SchedulerState).isRunning = false
    ∧ (⟨true, 3, 4⟩ : SchedulerState).isRunning = true
    ∧ (schedulerStep ⟨true, 3, 4⟩ SchedulerEvent.tick = ⟨true, 3, 5⟩
        ∧ schedulerRun ⟨false, 0, 0⟩
            [SchedulerEvent.tick, SchedulerEvent.tick, SchedulerEvent.finish]
          = ⟨false, 1, 1⟩) :=
  ⟨by decide, by decide,
   C7_single_inflight ⟨false, 0, 0⟩ ⟨true, 3, 4⟩ (by decide) (by decide)⟩

/-! ## Claim C8 — extraction failure is conversation-scoped -/

/-- C8 counterexample: a `parseExportedData` throw on a later HTML file is
caught only after earlier files completed their parse-and-dispatch iteration,
so although the conversation reports zero new messages (watermark untouched),
one email HAS been handed to the transport for it — refuting the claim's "no
emails are sent for it" on a parse failure. -/
theorem C8_counterexample :
    syncConversationCount ⟨"c0", "C", ["p"], false, 0, some 0, none⟩
        (ExtractOutcome.parseFailed [[⟨"g1", "early", 100, false, "h", "c0"⟩]]) = 0
    ∧ (sentEmailsOf (conversationEffects true ⟨"c0", "C", ["p"], false, 0, some 0, none⟩
        (ExtractOutcome.parseFailed [[⟨"g1", "early", 100, false, "h", "c0"⟩]]))).length
      = 1 :=
  ⟨by decide, by decide⟩

/-- C8 (amended): when extraction fails for a conversation — the export itself
fails, or a parse/cleanup error is thrown inside the per-file loop — the error
is conversation-scoped: the conversation reports zero new messages (so no
update is collected and its watermark is untouched by the batch commit when no
other entry shares its chatIdentifier), the error is recorded, and the cycle
continues with the remaining tracked conversations, whose update list is
exactly as if the failed conversation contributed nothing. On an export
failure no emails are sent for it; on a parse failure, however, the emails of
the HTML files whose loop iteration completed before the throw have already
been dispatched. -/
theorem C8_extraction_failure_scoped (emailEnabled : Bool)
    (extract : TrackedConversation → ExtractOutcome) (nowAt : Nat → Int)
    (pre post : List TrackedConversation) (c : TrackedConversation) (k0 : Nat)
    (hfail : extract c = ExtractOutcome.exportFailed
      ∨ ∃ parsedBefore, extract c = ExtractOutcome.parseFailed parsedBefore) :
    syncConversationCount c (extract c) = 0
    ∧ SyncEffect.logError c.chatIdentifier
        ∈ conversationEffects emailEnabled c (extract c)
    ∧ (extract c = ExtractOutcome.exportFailed →
        conversationEffects emailEnabled c (extract c)
          = [SyncEffect.exportRun c.chatIdentifier, SyncEffect.logError c.chatIdentifier]
        ∧ sentEmailsOf (conversationEffects emailEnabled c (extract c)) = [])
    ∧ (∀ parsedBefore, extract c = ExtractOutcome.parseFailed parsedBefore →
        sentEmailsOf (conversationEffects emailEnabled c (extract c))
          = parsedBefore.flatMap fun messages =>
              sentEmailsOf (fileEffects emailEnabled c messages))
    ∧ cycleUpdates extract nowAt (pre ++ c :: post) k0
        = cycleUpdates extract nowAt pre k0
            ++ cycleUpdates extract nowAt post (k0 + pre.length + 1)
    ∧ ((∀ conv ∈ pre ++ post, conv.chatIdentifier ≠ c.chatIdentifier) →
        List.Forall₂ (fun a b => a.chatIdentifier = c.chatIdentifier → b = a)
          (pre ++ c :: post)
          ((cycleUpdates extract nowAt (pre ++ c :: post) k0).foldl
            applyConversationUpdate (pre ++ c :: post))) := by
  have hcnt : syncConversationCount c (extract c) = 0 := by
    rcases hfail with h | ⟨parsedBefore, h⟩
    · rw [h]; rfl
    · rw [h]; rfl
  refine ⟨hcnt, ?_, ?_, ?_, ?_, ?_⟩
  · rcases hfail with h | ⟨parsedBefore, h⟩
    · rw [h]; simp [conversationEffects]
    · rw [h]; simp [conversationEffects]
  · intro h
    rw [h]
    exact ⟨rfl, rfl⟩
  · intro parsedBefore h
    rw [h, sentEmailsOf_conversationEffects]
    rfl
  · rw [cycleUpdates_append]
    have hstep : cycleUpdates extract nowAt (c :: post) (k0 + pre.length)
        = cycleUpdates extract nowAt post (k0 + pre.length + 1) := by
      rw [cycleUpdates, if_neg (by rw [hcnt]; exact lt_irrefl 0)]
    rw [hstep]
  · intro hids
    have huntouched := batch_fold_untouched
      (cycleUpdates extract nowAt (pre ++ c :: post) k0) (pre ++ c :: post)
    refine huntouched.imp ?_
    intro a b hab hacid
    refine hab ?_
    intro u hu hueq
    obtain ⟨k, _, _, conv2, hconv2, hcid2, hcnt2⟩ :=
      cycleUpdates_mem extract nowAt (pre ++ c :: post) k0 u hu
    have hc2 : conv2.chatIdentifier = c.chatIdentifier := by
      rw [← hcid2, hueq, hacid]
    rcases List.mem_append.mp hconv2 with hp | hcp
    · exact hids conv2 (List.mem_append_left post hp) hc2
    · rcases List.mem_cons.mp hcp with rfl | hpost
      · rw [hcnt] at hcnt2
        exact lt_irrefl 0 hcnt2
      · exact hids conv2 (List.mem_append_right pre hpost) hc2

/-- Conversations of the C8 witness cycle. -/
def convA8 : TrackedConversation := ⟨"cA", "A", ["pA"], false, 0, some 0, none⟩

def convB8 : TrackedConversation := ⟨"cB", "B", ["pB"], false, 0, some 0, none⟩

def convC8 : TrackedConversation := ⟨"cC", "C", ["pC"], false, 0, some 0, none⟩

/-- Extraction environment of the C8 witness cycle: the middle conversation's
parse throws after one file was already dispatched, the others succeed with one
incoming message. -/
def extract8 : TrackedConversation → ExtractOutcome := fun conv =>
  if conv.chatIdentifier = "cB" then
    ExtractOutcome.parseFailed [[⟨"gP", "parsed", 600, false, "h", "cB"⟩]]
  else ExtractOutcome.ok [[⟨"g", "m", 500, false, "h", conv.chatIdentifier⟩]]

/-- Witness for C8: a cycle over three conversations whose middle extraction
fails while parsing, after one file was dispatched. -/
theorem C8_extraction_failure_scoped_witness :
    (extract8 convB8 = ExtractOutcome.exportFailed
      ∨ ∃ parsedBefore, extract8 convB8 = ExtractOutcome.parseFailed parsedBefore)
    ∧ (syncConversationCount convB8 (extract8 convB8) = 0
        ∧ SyncEffect.logError convB8.chatIdentifier
            ∈ conversationEffects true convB8 (extract8 convB8)
        ∧ (extract8 convB8 = ExtractOutcome.exportFailed →
            conversationEffects true convB8 (extract8 convB8)
              = [SyncEffect.exportRun convB8.chatIdentifier,
                 SyncEffect.logError convB8.chatIdentifier]
            ∧ sentEmailsOf (conversationEffects true convB8 (extract8 convB8)) = [])
        ∧ (∀ parsedBefore, extract8 convB8 = ExtractOutcome.parseFailed parsedBefore →
            sentEmailsOf (conversationEffects true convB8 (extract8 convB8))
              = parsedBefore.flatMap fun messages =>
                  sentEmailsOf (fileEffects true convB8 messages))
        ∧ cycleUpdates extract8 (fun _ => 1000000) ([convA8] ++ convB8 :: [convC8]) 0
          = cycleUpdates extract8 (fun _ => 1000000) [convA8] 0
              ++ cycleUpdates extract8 (fun _ => 1000000) [convC8]
                  (0 + [convA8].length + 1)
        ∧ ((∀ conv ∈ [convA8] ++ [convC8],
              conv.chatIdentifier ≠ convB8.chatIdentifier) →
            List.Forall₂
              (fun a b => a.chatIdentifier = convB8.chatIdentifier → b = a)
              ([convA8] ++ convB8 :: [convC8])
              ((cycleUpdates extract8 (fun _ => 1000000)
                  ([convA8] ++ convB8 :: [convC8]) 0).foldl
                applyConversationUpdate ([convA8] ++ convB8 :: [convC8])))) :=
  ⟨Or.inr ⟨[[⟨"gP", "parsed", 600, false, "h", "cB"⟩]], by decide⟩,
   C8_extraction_failure_scoped true extract8 (fun _ => 1000000)
     [convA8] [convC8] convB8 0
     (Or.inr ⟨[[⟨"gP", "parsed", 600, false, "h", "cB"⟩]], by decide⟩)⟩

/-! ## Claim C10 — adding a conversation to tracking -/

/-- Number of tracked entries carrying a given chatIdentifier. -/
def countChat (cid : String) (convs : List TrackedConversation) : Nat :=
  (convs.filter fun e => e.chatIdentifier == cid).length

theorem find_replaceFirstOrAppend (cid : String) (t : TrackedConversation)
    (ht : t.chatIdentifier = cid) :
    ∀ convs : List TrackedConversation,
      (replaceFirstOrAppend cid t convs).find? (fun e => e.chatIdentifier == cid)
        = some t := by
  intro convs
  induction convs with
  | nil => simp [replaceFirstOrAppend, List.find?, ht]
  | cons c rest ih =>
    by_cases hc : c.chatIdentifier = cid
    · simp [replaceFirstOrAppend, hc, List.find?, ht]
    · simp only [replaceFirstOrAppend, if_neg hc, List.find?]
      rw [show (c.chatIdentifier == cid) = false by simp [hc]]
      exact ih

theorem countChat_replaceFirstOrAppend (cid : String) (t : TrackedConversation)
    (ht : t.chatIdentifier = cid) :
    ∀ convs : List TrackedConversation,
      countChat cid (replaceFirstOrAppend cid t convs)
        = max (countChat cid convs) 1 := by
  intro convs
  induction convs with
  | nil => simp [replaceFirstOrAppend, countChat, ht]
  | cons c rest ih =>
    by_cases hc : c.chatIdentifier = cid
    · simp only [replaceFirstOrAppend, if_pos hc, countChat, List.filter]
      rw [show (t.chatIdentifier == cid) = true by simp [ht],
        show (c.chatIdentifier == cid) = true by simp [hc]]
      simp only [List.length_cons]
      omega
    · simp only [replaceFirstOrAppend, if_neg hc, countChat, List.filter]
      rw [show (c.chatIdentifier == cid) = false by simp [hc]]
      exact ih

theorem length_replaceFirstOrAppend (cid : String) (t : TrackedConversation) :
    ∀ convs : List TrackedConversation, countChat cid convs ≠ 0 →
      (replaceFirstOrAppend cid t convs).length = convs.length := by
  intro convs
  induction convs with
  | nil => intro h; exact absurd rfl h
  | cons c rest ih =>
    intro h
    by_cases hc : c.chatIdentifier = cid
    · simp [replaceFirstOrAppend, hc]
    · have hrest : countChat cid rest ≠ 0 := by
        intro h0
        apply h
        simp only [countChat, List.filter]
        rw [show (c.chatIdentifier == cid) = false by simp [hc]]
        exact h0
      simp [replaceFirstOrAppend, hc, ih hrest]

/-- C10 counterexample: the conversation is added at time 10000 with watermark
10000. One successful cycle two seconds later finds a genuinely new message and
commits `12000 - 5000 = 7000`, below the add time; in the next cycle a message
timestamped 9000 — before the conversation was added — passes the filter and is
among the incoming messages that get emailed. So messages predating the add can
be forwarded by later cycles. -/
theorem C10_counterexample :
    (addTrackedConversation ⟨[], 1, none, true, "info"⟩
        ⟨"c0", "C", ["p"], false, none, none⟩ 10000).trackedConversations
      = [⟨"c0", "C", ["p"], false, 10000, some 10000, none⟩]
    ∧ (runCycle true
          (fun _ => ExtractOutcome.ok [[⟨"gN", "new", 11500, false, "h", "c0"⟩]])
          (fun _ => 12000) 12000
          ⟨[⟨"c0", "C", ["p"], false, 10000, some 10000, none⟩], 1, none, true,
            "info"⟩).trackedConversations
      = [⟨"c0", "C", ["p"], false, 10000, some 7000, none⟩]
    ∧ ((9000 : Int) < 10000
        ∧ (⟨"gO", "old", 9000, false, "h", "c0"⟩ : Message)
            ∈ newReceivedMessagesOf ⟨"c0", "C", ["p"], false, 10000, some 7000, none⟩
              [⟨"gO", "old", 9000, false, "h", "c0"⟩,
               ⟨"gN", "new", 11500, false, "h", "c0"⟩]) :=
  ⟨by decide, by decide, by decide, by decide⟩

/-- C10 (amended): `addTrackedConversation` stores the entry with watermark
`lastSyncDate = now` (the time of addition), re-adding an already-tracked
chatIdentifier replaces the existing entry rather than duplicating (the entry
count for that id and the list length are unchanged), and in the next cycle no
message timestamped at or before the addition passes the freshly added entry's
filter. Later cycles, however, can forward pre-add messages once a successful
commit has moved the watermark below the add time (see the counterexample). -/
theorem C10_addTrackedConversation (config : SyncConfig)
    (conversation : ConversationInput) (now : Int) (messages : List Message)
    (msg : Message)
    (hcnt : countChat conversation.chatIdentifier config.trackedConversations ≠ 0)
    (hold : msg.date ≤ now) :
    (addTrackedConversation config conversation now).trackedConversations.find?
        (fun e => e.chatIdentifier == conversation.chatIdentifier)
      = some ⟨conversation.chatIdentifier, conversation.displayName,
          conversation.participants, conversation.isGroup, now, some now,
          conversation.lastMessageId⟩
    ∧ countChat conversation.chatIdentifier
        (addTrackedConversation config conversation now).trackedConversations
      = countChat conversation.chatIdentifier config.trackedConversations
    ∧ (addTrackedConversation config conversation now).trackedConversations.length
      = config.trackedConversations.length
    ∧ msg ∉ newMessagesOf ⟨conversation.chatIdentifier, conversation.displayName,
        conversation.participants, conversation.isGroup, now, some now,
        conversation.lastMessageId⟩ messages := by
  refine ⟨?_, ?_, ?_, ?_⟩
  · exact find_replaceFirstOrAppend conversation.chatIdentifier _ rfl
      config.trackedConversations
  · rw [addTrackedConversation]
    have h := countChat_replaceFirstOrAppend conversation.chatIdentifier
      ⟨conversation.chatIdentifier, conversation.displayName,
        conversation.participants, conversation.isGroup, now, some now,
        conversation.lastMessageId⟩ rfl config.trackedConversations
    simp only at h ⊢
    rw [h]
    omega
  · exact length_replaceFirstOrAppend conversation.chatIdentifier _
      config.trackedConversations hcnt
  · intro hm
    have h := (List.mem_filter.mp hm).2
    simp only [isNewMessage, decide_eq_true_eq] at h
    omega

/-- Witness for C10 (amended) at a concrete re-add. -/
theorem C10_addTrackedConversation_witness :
    countChat "c0" (⟨[⟨"c0", "Old", ["p"], false, 500, some 500, none⟩], 1, none,
        true, "info"⟩ : SyncConfig).trackedConversations ≠ 0
    ∧ (⟨"gO", "old", 9999, false, "h", "c0"⟩ : Message).date ≤ 10000
    ∧ ((addTrackedConversation
          ⟨[⟨"c0", "Old", ["p"], false, 500, some 500, none⟩], 1, none, true, "info"⟩
          ⟨"c0", "C", ["p"], false, none, none⟩ 10000).trackedConversations.find?
            (fun e => e.chatIdentifier == "c0")
          = some ⟨"c0", "C", ["p"], false, 10000, some 10000, none⟩
        ∧ countChat "c0" (addTrackedConversation
            ⟨[⟨"c0", "Old", ["p"], false, 500, some 500, none⟩], 1, none, true, "info"⟩
            ⟨"c0", "C", ["p"], false, none, none⟩ 10000).trackedConversations
          = countChat "c0" (⟨[⟨"c0", "Old", ["p"], false, 500, some 500, none⟩], 1,
              none, true, "info"⟩ : SyncConfig).trackedConversations
        ∧ (addTrackedConversation
            ⟨[⟨"c0", "Old", ["p"], false, 500, some 500, none⟩], 1, none, true, "info"⟩
            ⟨"c0", "C", ["p"], false, none, none⟩ 10000).trackedConversations.length
          = (⟨[⟨"c0", "Old", ["p"], false, 500, some 500, none⟩], 1, none, true,
              "info"⟩ : SyncConfig).trackedConversations.length
        ∧ (⟨"gO", "old", 9999, false, "h", "c0"⟩ : Message)
            ∉ newMessagesOf ⟨"c0", "C", ["p"], false, 10000, some 10000, none⟩
              [⟨"gO", "old", 9999, false, "h", "c0"⟩]) :=
  ⟨by decide, by decide,
   C10_addTrackedConversation
     ⟨[⟨"c0", "Old", ["p"], false, 500, some 500, none⟩], 1, none, true, "info"⟩
     ⟨"c0", "C", ["p"], false, none, none⟩ 10000
     [⟨"gO", "old", 9999, false, "h", "c0"⟩]
     ⟨"gO", "old", 9999, false, "h", "c0"⟩ (by decide) (by decide)⟩

end IMessageSync
